import Mathlib

set_option maxRecDepth 8192

/-!
Verification development for the svxlink reflector-client core.

The development shallowly embeds the code of the repository:

* `Async.AudioValve` — the audio valve from `AsyncAudioValve.h`, with its
  `writeSamples` and `flushSamples` member functions translated directly from
  the C++ source.
* `Squelch` — the squelch detector base class from `Squelch.h`, with the
  operations that touch its `hangtime` and `delay` fields.
* `ReflectorLogic` — the reflector-client logic.  Only the header
  `ReflectorLogic.h` is part of the repository snapshot: it declares the four
  heartbeat counter reset constants (embedded verbatim below) and the member
  functions, but the member function bodies (`heartbeatHandler`, `sendUdpMsg`,
  `udpDatagramReceived`, `handleMsgAuthChallenge`, `flushTimeout`,
  `allEncodedSamplesFlushed`, `disconnect`, `reconnect`) are not in the
  snapshot.  Those behaviours are modelled from the specification, each marked
  by a doc comment starting with "Modelled from the spec:".
-/

namespace Async

/-- The stream state of the valve (`AudioValve::StreamState`). -/
inductive StreamState
  | idle
  | active
  | flushing
deriving DecidableEq, Repr

/-- The mutable state of an `AudioValve` (fields of the C++ class that its
`writeSamples` and `flushSamples` members read or write). -/
structure AudioValve where
  stream_state : StreamState
  block_when_closed : Bool
  is_open : Bool
  is_blocking : Bool
deriving DecidableEq, Repr

/-- `AudioValve::writeSamples`.  `count` is the number of samples offered and
`sink_written` models the value returned by the internal sink
(`sigsrc.writeSamples(samples, count)`) in case the valve is open; the call to
the sink only happens when the valve is open.  The result is the new valve
state, the return value of the call, and whether the samples were forwarded to
the internal sink. -/
def AudioValve.writeSamples (v : AudioValve) (count : Int) (sink_written : Int) :
    AudioValve × Int × Bool :=
  let written : Int :=
    if v.is_open then sink_written
    else if v.block_when_closed then 0 else count
  ({ v with stream_state := .active,
            is_blocking := v.is_blocking || decide (written < count) },
   written, v.is_open)

/-- `AudioValve::flushSamples`.  The result is the new valve state, whether
`sigsrc.flushSamples()` was called (flush delegated to the internal FIFO
chain), and whether `sourceAllSamplesFlushed()` was called (flush completion
reported synchronously to the connected source). -/
def AudioValve.flushSamples (v : AudioValve) : AudioValve × Bool × Bool :=
  if v.is_open then
    ({ v with stream_state := .flushing }, true, false)
  else
    ({ v with stream_state := .idle, is_blocking := false }, false, true)

end Async

/-- The state of a `Squelch` detector (the fields of the C++ class). -/
structure Squelch where
  m_open : Bool
  hangtime : Int
  hangtime_left : Int
  delay : Int
  delay_left : Int
deriving DecidableEq, Repr

namespace Squelch

/-- The state established by the `Squelch` constructor. -/
def init : Squelch :=
  { m_open := false, hangtime := 0, hangtime_left := 0, delay := 0,
    delay_left := 0 }

/-- `Squelch::setHangtime`: `hangtime = (hang_samples >= 0) ? hang_samples : 0`. -/
def setHangtime (s : Squelch) (hang_samples : Int) : Squelch :=
  { s with hangtime := if 0 ≤ hang_samples then hang_samples else 0 }

/-- `Squelch::setDelay`: `delay = (delay_samples >= 0) ? delay_samples : 0`. -/
def setDelay (s : Squelch) (delay_samples : Int) : Squelch :=
  { s with delay := if 0 ≤ delay_samples then delay_samples else 0 }

/-- `Squelch::reset`. -/
def reset (s : Squelch) : Squelch :=
  { s with m_open := false, hangtime_left := 0, delay_left := 0 }

/-- `Squelch::initialize`: the optional configuration values `SQL_HANGTIME`
and `SQL_DELAY` (results of `atoi`, hence possibly negative) are scaled by 8
and passed to `setHangtime` and `setDelay`. -/
def initFromConfig (s : Squelch) (sql_hangtime sql_delay : Option Int) :
    Squelch :=
  let s1 := match sql_hangtime with
    | some v => setHangtime s (v * 8)
    | none => s
  match sql_delay with
  | some v => setDelay s1 (v * 8)
  | none => s1

/-- `Squelch::writeSamples`.  `ret_count` models the value returned by the
pure virtual `processSamples`, which a subclass implements. -/
def writeSamples (s : Squelch) (ret_count : Int) : Squelch :=
  let s1 :=
    if 0 < s.hangtime_left then
      let hl := s.hangtime_left - ret_count
      if hl ≤ 0 then { s with hangtime_left := hl, m_open := false }
      else { s with hangtime_left := hl }
    else s
  if 0 < s1.delay_left then
    let dl := s1.delay_left - ret_count
    if dl ≤ 0 then { s1 with delay_left := dl, m_open := true }
    else { s1 with delay_left := dl }
  else s1

/-- `Squelch::setOpen`. -/
def setOpen (s : Squelch) (is_open : Bool) : Squelch :=
  if is_open then
    let s1 := { s with hangtime_left := 0 }
    if s1.delay = 0 then
      if s1.m_open = false then { s1 with m_open := true } else s1
    else
      if s1.m_open = false ∧ s1.delay_left ≤ 0 then
        { s1 with delay_left := s1.delay }
      else s1
  else
    let s1 := { s with delay_left := 0 }
    if s1.hangtime = 0 then
      if s1.m_open = true then { s1 with m_open := false } else s1
    else
      if s1.m_open = true ∧ s1.hangtime_left ≤ 0 then
        { s1 with hangtime_left := s1.hangtime }
      else s1

end Squelch

/-- An operation on a `Squelch` object (every member function of the class
that mutates its state, with the data each one consumes). -/
inductive SqOp
  | setHangtime (n : Int)
  | setDelay (n : Int)
  | reset
  | setOpen (b : Bool)
  | writeSamples (ret_count : Int)
  | initFromConfig (sql_hangtime sql_delay : Option Int)

/-- Apply one operation to a `Squelch` state. -/
def Squelch.applyOp (s : Squelch) : SqOp → Squelch
  | .setHangtime n => s.setHangtime n
  | .setDelay n => s.setDelay n
  | .reset => s.reset
  | .setOpen b => s.setOpen b
  | .writeSamples n => s.writeSamples n
  | .initFromConfig h d => s.initFromConfig h d

/-- Run a sequence of operations from a given `Squelch` state. -/
def Squelch.runOps (s : Squelch) (ops : List SqOp) : Squelch :=
  ops.foldl Squelch.applyOp s

/-- `setHangtime` and `setDelay` leave the other timing field untouched and
clamp their argument; no operation writes a negative value into `hangtime` or
`delay`. -/
theorem Squelch.applyOp_nonneg (s : Squelch) (op : SqOp)
    (h : 0 ≤ s.hangtime ∧ 0 ≤ s.delay) :
    0 ≤ (s.applyOp op).hangtime ∧ 0 ≤ (s.applyOp op).delay := by
  obtain ⟨h1, h2⟩ := h
  cases op with
  | setHangtime n =>
    simp only [applyOp, setHangtime]
    constructor
    · split <;> omega
    · exact h2
  | setDelay n =>
    simp only [applyOp, setDelay]
    constructor
    · exact h1
    · split <;> omega
  | reset => exact ⟨h1, h2⟩
  | setOpen b =>
    simp only [applyOp, setOpen]
    split <;> split <;> split <;> simp_all
  | writeSamples n =>
    simp only [applyOp, writeSamples]
    repeat' split
    all_goals exact ⟨h1, h2⟩
  | initFromConfig hv dv =>
    cases hv <;> cases dv <;>
      simp only [applyOp, initFromConfig, setHangtime, setDelay] <;>
      refine ⟨?_, ?_⟩ <;> first | assumption | (split <;> omega)

theorem Squelch.runOps_nonneg (ops : List SqOp) (s : Squelch)
    (h : 0 ≤ s.hangtime ∧ 0 ≤ s.delay) :
    0 ≤ (Squelch.runOps s ops).hangtime ∧ 0 ≤ (Squelch.runOps s ops).delay := by
  induction ops generalizing s with
  | nil => exact h
  | cons op rest ih => exact ih (s.applyOp op) (Squelch.applyOp_nonneg s op h)

/-- C10: the squelch detector's `hangtime` and `delay` fields are non-negative
after every sequence of operations starting from the constructed state;
`setHangtime` and `setDelay` clamp a negative argument to zero (the field
becomes `max n 0`). -/
theorem squelch_hangtime_delay_nonneg (ops : List SqOp) (s : Squelch) (n : Int) :
    (0 ≤ (Squelch.runOps Squelch.init ops).hangtime ∧
     0 ≤ (Squelch.runOps Squelch.init ops).delay) ∧
    (s.setHangtime n).hangtime = max n 0 ∧
    (s.setDelay n).delay = max n 0 := by
  refine ⟨Squelch.runOps_nonneg ops Squelch.init (by simp [Squelch.init]), ?_, ?_⟩
  · simp only [Squelch.setHangtime]
    rcases le_total n 0 with h | h
    · simp [max_eq_right h]
      omega
    · simp [max_eq_left h]
      omega
  · simp only [Squelch.setDelay]
    rcases le_total n 0 with h | h
    · simp [max_eq_right h]
      omega
    · simp [max_eq_left h]
      omega

/-- C8: while the valve is closed, `writeSamples` returns `count` when
`block_when_closed` is false (samples discarded) and `0` when it is true
(source blocked); in both cases nothing is forwarded to the internal sink. -/
theorem audio_valve_writeSamples_closed (v : Async.AudioValve)
    (count sink_written : Int) (h : v.is_open = false) :
    (v.block_when_closed = false →
      (v.writeSamples count sink_written).2.1 = count) ∧
    (v.block_when_closed = true →
      (v.writeSamples count sink_written).2.1 = 0) ∧
    (v.writeSamples count sink_written).2.2 = false := by
  simp only [Async.AudioValve.writeSamples, h]
  cases hb : v.block_when_closed <;> simp

theorem audio_valve_writeSamples_closed_witness :
    ((Async.AudioValve.mk .idle false false false).writeSamples 17 0).2.1 = 17 ∧
    ((Async.AudioValve.mk .idle false false false).writeSamples 17 0).2.2
      = false := by
  have h := audio_valve_writeSamples_closed
    (Async.AudioValve.mk .idle false false false) 17 0 rfl
  exact ⟨h.1 rfl, h.2.2⟩

/-- C9: `flushSamples` on a closed valve completes the flush handshake
synchronously: the stream state becomes idle, the blocking flag is cleared,
`sourceAllSamplesFlushed` is invoked within the call, and the internal FIFO
chain is not asked to flush (no wait for it to drain). -/
theorem audio_valve_flushSamples_closed (v : Async.AudioValve)
    (h : v.is_open = false) :
    (v.flushSamples).1.stream_state = .idle ∧
    (v.flushSamples).1.is_blocking = false ∧
    (v.flushSamples).2.2 = true ∧
    (v.flushSamples).2.1 = false := by
  simp [Async.AudioValve.flushSamples, h]

theorem audio_valve_flushSamples_closed_witness :
    ((Async.AudioValve.mk .active true false true).flushSamples).1.stream_state
        = .idle ∧
    ((Async.AudioValve.mk .active true false true).flushSamples).1.is_blocking
        = false ∧
    ((Async.AudioValve.mk .active true false true).flushSamples).2.2 = true ∧
    ((Async.AudioValve.mk .active true false true).flushSamples).2.1 = false :=
  audio_valve_flushSamples_closed (Async.AudioValve.mk .active true false true)
    rfl

namespace ReflectorLogic

/-- `ReflectorLogic::UDP_HEARTBEAT_TX_CNT_RESET` (ReflectorLogic.h). -/
def UDP_HEARTBEAT_TX_CNT_RESET : Nat := 15

/-- `ReflectorLogic::UDP_HEARTBEAT_RX_CNT_RESET` (ReflectorLogic.h). -/
def UDP_HEARTBEAT_RX_CNT_RESET : Nat := 60

/-- `ReflectorLogic::TCP_HEARTBEAT_TX_CNT_RESET` (ReflectorLogic.h). -/
def TCP_HEARTBEAT_TX_CNT_RESET : Nat := 10

/-- `ReflectorLogic::TCP_HEARTBEAT_RX_CNT_RESET` (ReflectorLogic.h). -/
def TCP_HEARTBEAT_RX_CNT_RESET : Nat := 15

/-- Modelled from the spec: the body of `ReflectorLogic::heartbeatHandler` is
declared in ReflectorLogic.h but is not in the repository snapshot.  Per tick
the transmit counter of a channel is decremented; at zero a heartbeat message
is sent on that channel and the counter resets to its configured maximum.
The result is the counter after the tick and whether a heartbeat was sent. -/
def tickTx (reset cnt : Nat) : Nat × Bool :=
  let c := cnt - 1
  if c = 0 then (reset, true) else (c, false)

/-- The per-tick heartbeat send flags of one channel over `n` ticks, starting
from transmit counter value `cnt` (ticks numbered from 1). -/
def txTrace (reset : Nat) : Nat → Nat → List Bool
  | _, 0 => []
  | cnt, n + 1 =>
    let r := tickTx reset cnt
    r.2 :: txTrace reset r.1 n

end ReflectorLogic

/-- C1: the four heartbeat counter reset constants have the values the spec
gives (TCP transmit 10, TCP receive 15, UDP transmit 15, UDP receive 60), and
with no application traffic the reliable channel, starting from its reset
value, sends its first heartbeat at tick 10 while the unreliable channel sends
its first heartbeat at tick 15. -/
theorem heartbeat_reset_constants :
    ReflectorLogic.TCP_HEARTBEAT_TX_CNT_RESET = 10 ∧
    ReflectorLogic.TCP_HEARTBEAT_RX_CNT_RESET = 15 ∧
    ReflectorLogic.UDP_HEARTBEAT_TX_CNT_RESET = 15 ∧
    ReflectorLogic.UDP_HEARTBEAT_RX_CNT_RESET = 60 ∧
    ReflectorLogic.txTrace ReflectorLogic.TCP_HEARTBEAT_TX_CNT_RESET
        ReflectorLogic.TCP_HEARTBEAT_TX_CNT_RESET 10
      = List.replicate 9 false ++ [true] ∧
    ReflectorLogic.txTrace ReflectorLogic.UDP_HEARTBEAT_TX_CNT_RESET
        ReflectorLogic.UDP_HEARTBEAT_TX_CNT_RESET 15
      = List.replicate 14 false ++ [true] := by
  decide

namespace ReflectorLogic

/-- Modelled from the spec: the body of `ReflectorLogic::sendUdpMsg` is
declared in ReflectorLogic.h but is not in the snapshot.  The outgoing
unreliable-channel sequence counter `m_next_udp_tx_seq` is a `uint16_t`
(ReflectorLogic.h) incremented once per sent frame with 16-bit wrap-around. -/
def nextSeq (s : Nat) : Nat := (s + 1) % 65536

/-- The sequence number carried by the i-th audio frame of a session whose
outgoing counter starts at `s0`. -/
def txSeqAt (s0 : Nat) : Nat → Nat
  | 0 => s0 % 65536
  | i + 1 => nextSeq (txSeqAt s0 i)

theorem txSeqAt_eq (s0 : Nat) : ∀ i, txSeqAt s0 i = (s0 + i) % 65536 := by
  intro i
  induction i with
  | zero => simp [txSeqAt]
  | succ k ih =>
    simp only [txSeqAt, nextSeq, ih, Nat.mod_add_mod]
    ring_nf

end ReflectorLogic

/-- C2: the outgoing unreliable-channel sequence number strictly increases
modulo 2^16 per frame (the counter on frame i+1 is the counter on frame i plus
one, mod 2^16) and never repeats a value until it wraps: two frames fewer than
2^16 positions apart carry different sequence numbers. -/
theorem udp_tx_seq_strictly_increasing (s0 i j : Nat) (hij : i < j)
    (hwrap : j < i + 65536) :
    ReflectorLogic.txSeqAt s0 (i + 1)
      = (ReflectorLogic.txSeqAt s0 i + 1) % 65536 ∧
    ReflectorLogic.txSeqAt s0 i ≠ ReflectorLogic.txSeqAt s0 j := by
  constructor
  · rfl
  · rw [ReflectorLogic.txSeqAt_eq, ReflectorLogic.txSeqAt_eq]
    intro heq
    have hmod : (s0 + i) % 65536 = (s0 + j) % 65536 := heq
    have hdvd : (65536 : Nat) ∣ (s0 + j) - (s0 + i) :=
      (Nat.modEq_iff_dvd' (by omega)).mp hmod
    have hle : (65536 : Nat) ≤ (s0 + j) - (s0 + i) :=
      Nat.le_of_dvd (by omega) hdvd
    omega

theorem udp_tx_seq_strictly_increasing_witness :
    ReflectorLogic.txSeqAt 0 1 = (ReflectorLogic.txSeqAt 0 0 + 1) % 65536 ∧
    ReflectorLogic.txSeqAt 0 0 ≠ ReflectorLogic.txSeqAt 0 1 :=
  udp_tx_seq_strictly_increasing 0 0 1 (by decide) (by decide)

namespace ReflectorLogic

/-- The timer-relevant events of the session: a session failure schedules the
single reconnect timer, a flush request (with encoder output pending)
schedules the single flush-timeout timer, firing or completing removes the
corresponding timer. -/
inductive TimerEv
  | sessionFailure
  | reconnectFired
  | flushRequest
  | flushTimerFired
  | flushCompleted
deriving DecidableEq, Repr

/-- The number of pending timers of each kind. -/
structure TimerState where
  reconnect_pending : Nat
  flush_pending : Nat
deriving DecidableEq, Repr

/-- Modelled from the spec: the timer management of `ReflectorLogic`
(`reconnect`, `flushTimeout` and their scheduling) is declared in
ReflectorLogic.h — which holds exactly one `m_reconnect_timer` and one
`m_flush_timeout_timer` member — but the bodies are not in the snapshot.
Starting a new reconnect or flush timer first cancels/replaces any existing
one of that kind (it is never duplicated); firing or normal completion
removes it. -/
def timerStep (st : TimerState) : TimerEv → TimerState
  | .sessionFailure => { st with reconnect_pending := 1 }
  | .reconnectFired => { st with reconnect_pending := 0 }
  | .flushRequest => { st with flush_pending := 1 }
  | .flushTimerFired => { st with flush_pending := 0 }
  | .flushCompleted => { st with flush_pending := 0 }

/-- Run the timer discipline from the initial state (no pending timers). -/
def timerRun (evs : List TimerEv) : TimerState :=
  evs.foldl timerStep ⟨0, 0⟩

theorem timerStep_at_most_one (st : TimerState) (e : TimerEv)
    (h : st.reconnect_pending ≤ 1 ∧ st.flush_pending ≤ 1) :
    (timerStep st e).reconnect_pending ≤ 1 ∧
    (timerStep st e).flush_pending ≤ 1 := by
  cases e <;> simp only [timerStep] <;> omega

theorem timerFold_at_most_one :
    ∀ (evs : List TimerEv) (st : TimerState),
      st.reconnect_pending ≤ 1 ∧ st.flush_pending ≤ 1 →
      (evs.foldl timerStep st).reconnect_pending ≤ 1 ∧
      (evs.foldl timerStep st).flush_pending ≤ 1
  | [], _, h => h
  | e :: evs, st, h =>
    timerFold_at_most_one evs (timerStep st e) (timerStep_at_most_one st e h)

end ReflectorLogic

/-- C3: for every interleaving of session failures, flush requests and timer
firings/completions, at most one reconnect timer and at most one
flush-timeout timer are pending simultaneously; scheduling replaces rather
than accumulates. -/
theorem at_most_one_timer_of_each_kind (evs : List ReflectorLogic.TimerEv) :
    (ReflectorLogic.timerRun evs).reconnect_pending ≤ 1 ∧
    (ReflectorLogic.timerRun evs).flush_pending ≤ 1 :=
  ReflectorLogic.timerFold_at_most_one evs ⟨0, 0⟩ (by decide)

namespace ReflectorLogic

/-- The states of the session state machine. -/
inductive ConnState
  | disconnected
  | connecting
  | awaitingChallenge
  | authenticating
  | ready
  | disconnecting
deriving DecidableEq, Repr

/-- The liveness-relevant part of the session: the connection state, the two
receive counters (`m_tcp_heartbeat_rx_cnt`, `m_udp_heartbeat_rx_cnt`) and a
count of transitions into `Disconnected`. -/
structure LiveState where
  conn : ConnState
  tcp_rx : Nat
  udp_rx : Nat
  disconnect_count : Nat
deriving DecidableEq, Repr

/-- The liveness state on entering `Ready`: both receive counters start at
their reset values. -/
def liveInit : LiveState :=
  { conn := .ready, tcp_rx := TCP_HEARTBEAT_RX_CNT_RESET,
    udp_rx := UDP_HEARTBEAT_RX_CNT_RESET, disconnect_count := 0 }

/-- Modelled from the spec: the bodies of `ReflectorLogic::heartbeatHandler`
and `ReflectorLogic::disconnect` are declared in ReflectorLogic.h but are not
in the snapshot.  One heartbeat tick: each receive counter is reset to its
maximum if any valid message arrived on that channel during the tick
(`tcp_got`/`udp_got`), otherwise decremented; a receive counter reaching zero
means that channel is dead, so the whole session fails and moves to
`Disconnected` even if the other channel is alive.  Disconnecting stops the
heartbeat timer, so once out of `Ready` a tick changes nothing. -/
def liveTick (st : LiveState) (tcp_got udp_got : Bool) : LiveState :=
  if st.conn ≠ .ready then st
  else
    let t := if tcp_got then TCP_HEARTBEAT_RX_CNT_RESET else st.tcp_rx - 1
    let u := if udp_got then UDP_HEARTBEAT_RX_CNT_RESET else st.udp_rx - 1
    if t = 0 ∨ u = 0 then
      { conn := .disconnected, tcp_rx := t, udp_rx := u,
        disconnect_count := st.disconnect_count + 1 }
    else
      { st with tcp_rx := t, udp_rx := u }

/-- Run a sequence of heartbeat ticks; each list element carries the per-tick
inputs `(tcp_got, udp_got)`: whether a valid message arrived on the reliable
respectively the unreliable channel during that tick. -/
def liveRun (st : LiveState) : List (Bool × Bool) → LiveState
  | [] => st
  | i :: rest => liveRun (liveTick st i.1 i.2) rest

theorem liveTick_frozen (st : LiveState) (a b : Bool) (h : st.conn ≠ .ready) :
    liveTick st a b = st := by
  simp [liveTick, h]

theorem liveRun_frozen : ∀ (ins : List (Bool × Bool)) (st : LiveState),
    st.conn ≠ .ready → liveRun st ins = st
  | [], _, _ => rfl
  | i :: rest, st, h => by
    show liveRun (liveTick st i.1 i.2) rest = st
    rw [liveTick_frozen st i.1 i.2 h]
    exact liveRun_frozen rest st h

theorem liveRun_append : ∀ (l1 l2 : List (Bool × Bool)) (st : LiveState),
    liveRun st (l1 ++ l2) = liveRun (liveRun st l1) l2
  | [], _, _ => rfl
  | i :: rest, l2, st => liveRun_append rest l2 (liveTick st i.1 i.2)

/-- The reachable-state invariant of the liveness monitor: while `Ready`, no
disconnect has been counted and both receive counters are positive and at
most their reset values; once a receive counter has reached zero the session
is `Disconnected` and exactly one disconnect has been counted. -/
def LiveInv (st : LiveState) : Prop :=
  (st.conn = .ready ∧ st.disconnect_count = 0 ∧
   0 < st.tcp_rx ∧ st.tcp_rx ≤ TCP_HEARTBEAT_RX_CNT_RESET ∧
   0 < st.udp_rx ∧ st.udp_rx ≤ UDP_HEARTBEAT_RX_CNT_RESET) ∨
  (st.conn = .disconnected ∧ st.disconnect_count = 1)

theorem liveInit_inv : LiveInv liveInit :=
  Or.inl ⟨rfl, rfl, by decide, by decide, by decide, by decide⟩

theorem liveTick_ready_cases (st : LiveState) (a b : Bool)
    (hc : st.conn = .ready) :
    ((liveTick st a b).conn = .disconnected ∧
     (liveTick st a b).disconnect_count = st.disconnect_count + 1) ∨
    ((liveTick st a b).conn = .ready ∧
     (liveTick st a b).disconnect_count = st.disconnect_count ∧
     (liveTick st a b).tcp_rx
       = (if a then TCP_HEARTBEAT_RX_CNT_RESET else st.tcp_rx - 1) ∧
     (liveTick st a b).udp_rx
       = (if b then UDP_HEARTBEAT_RX_CNT_RESET else st.udp_rx - 1) ∧
     (liveTick st a b).tcp_rx ≠ 0 ∧ (liveTick st a b).udp_rx ≠ 0) := by
  simp only [liveTick, hc, ne_eq, not_true_eq_false, if_false,
    reduceCtorEq, not_false_eq_true, ite_false]
  repeat' split
  all_goals
    first
      | exact Or.inl ⟨rfl, rfl⟩
      | (rename_i hne
         rw [not_or] at hne
         exact Or.inr ⟨rfl, rfl, rfl, rfl, hne.1, hne.2⟩)

theorem liveTick_inv (st : LiveState) (a b : Bool) (h : LiveInv st) :
    LiveInv (liveTick st a b) := by
  rcases h with ⟨hc, h0, ht1, ht2, hu1, hu2⟩ | ⟨hc, h1⟩
  · rcases liveTick_ready_cases st a b hc with ⟨hd1, hd2⟩ |
      ⟨hr1, hr2, hrt, hru, hnt, hnu⟩
    · exact Or.inr ⟨hd1, by omega⟩
    · refine Or.inl ⟨hr1, by omega, by omega, ?_, by omega, ?_⟩
      · rw [hrt]
        cases a <;> simp <;> omega
      · rw [hru]
        cases b <;> simp <;> omega
  · rw [liveTick_frozen st a b (by simp [hc])]
    exact Or.inr ⟨hc, h1⟩

theorem liveRun_inv : ∀ (ins : List (Bool × Bool)) (st : LiveState),
    LiveInv st → LiveInv (liveRun st ins)
  | [], _, h => h
  | i :: rest, st, h =>
    liveRun_inv rest (liveTick st i.1 i.2) (liveTick_inv st i.1 i.2 h)

theorem liveRun_count_le_one (ins : List (Bool × Bool)) :
    (liveRun liveInit ins).disconnect_count ≤ 1 := by
  rcases liveRun_inv ins liveInit liveInit_inv with ⟨_, h0, _⟩ | ⟨_, h1⟩
  · omega
  · omega

theorem liveRun_silent_udp :
    ∀ (win : List (Bool × Bool)) (st : LiveState), LiveInv st →
      (∀ i ∈ win, i.2 = false) →
      (st.conn = .ready → st.udp_rx ≤ win.length) →
      (liveRun st win).conn = .disconnected ∧
      (liveRun st win).disconnect_count = 1
  | [], st, hinv, _, hbound => by
    rcases hinv with ⟨hc, _, _, _, hu1, _⟩ | ⟨hc, h1⟩
    · have hb := hbound hc
      simp only [List.length_nil] at hb
      omega
    · exact ⟨hc, h1⟩
  | i :: rest, st, hinv, hsil, hbound => by
    have hs2 : i.2 = false := hsil i (List.mem_cons_self i rest)
    have hrest : ∀ j ∈ rest, j.2 = false :=
      fun j hj => hsil j (List.mem_cons_of_mem i hj)
    have hinv2 : LiveInv (liveTick st i.1 i.2) := liveTick_inv st i.1 i.2 hinv
    have hbound2 : (liveTick st i.1 i.2).conn = .ready →
        (liveTick st i.1 i.2).udp_rx ≤ rest.length := by
      rcases hinv with ⟨hc, h0, ht1, ht2, hu1, hu2⟩ | ⟨hc, h1⟩
      · intro hready
        have hb : st.udp_rx ≤ rest.length + 1 := by
          have h3 := hbound hc
          simpa using h3
        rcases liveTick_ready_cases st i.1 i.2 hc with ⟨hd1, _⟩ |
          ⟨_, _, _, hru, _, _⟩
        · rw [hd1] at hready
          exact absurd hready (by decide)
        · rw [hru, hs2]
          simp only [Bool.false_eq_true, ite_false, if_false]
          omega
      · intro hready
        rw [liveTick_frozen st i.1 i.2 (by simp [hc])] at hready
        rw [hc] at hready
        exact absurd hready (by decide)
    exact liveRun_silent_udp rest (liveTick st i.1 i.2) hinv2 hrest hbound2

theorem liveRun_silent_tcp :
    ∀ (win : List (Bool × Bool)) (st : LiveState), LiveInv st →
      (∀ i ∈ win, i.1 = false) →
      (st.conn = .ready → st.tcp_rx ≤ win.length) →
      (liveRun st win).conn = .disconnected ∧
      (liveRun st win).disconnect_count = 1
  | [], st, hinv, _, hbound => by
    rcases hinv with ⟨hc, _, ht1, _, _, _⟩ | ⟨hc, h1⟩
    · have hb := hbound hc
      simp only [List.length_nil] at hb
      omega
    · exact ⟨hc, h1⟩
  | i :: rest, st, hinv, hsil, hbound => by
    have hs1 : i.1 = false := hsil i (List.mem_cons_self i rest)
    have hrest : ∀ j ∈ rest, j.1 = false :=
      fun j hj => hsil j (List.mem_cons_of_mem i hj)
    have hinv2 : LiveInv (liveTick st i.1 i.2) := liveTick_inv st i.1 i.2 hinv
    have hbound2 : (liveTick st i.1 i.2).conn = .ready →
        (liveTick st i.1 i.2).tcp_rx ≤ rest.length := by
      rcases hinv with ⟨hc, h0, ht1, ht2, hu1, hu2⟩ | ⟨hc, h1⟩
      · intro hready
        have hb : st.tcp_rx ≤ rest.length + 1 := by
          have h3 := hbound hc
          simpa using h3
        rcases liveTick_ready_cases st i.1 i.2 hc with ⟨hd1, _⟩ |
          ⟨_, _, hrt, _, _, _⟩
        · rw [hd1] at hready
          exact absurd hready (by decide)
        · rw [hrt, hs1]
          simp only [Bool.false_eq_true, ite_false, if_false]
          omega
      · intro hready
        rw [liveTick_frozen st i.1 i.2 (by simp [hc])] at hready
        rw [hc] at hready
        exact absurd hready (by decide)
    exact liveRun_silent_tcp rest (liveTick st i.1 i.2) hinv2 hrest hbound2

theorem liveRun_window_udp (pre win post : List (Bool × Bool))
    (hlen : win.length = UDP_HEARTBEAT_RX_CNT_RESET)
    (hsil : ∀ i ∈ win, i.2 = false) :
    (liveRun liveInit (pre ++ win ++ post)).conn = .disconnected ∧
    (liveRun liveInit (pre ++ win ++ post)).disconnect_count = 1 := by
  have hinv1 : LiveInv (liveRun liveInit pre) :=
    liveRun_inv pre liveInit liveInit_inv
  have hbound : (liveRun liveInit pre).conn = .ready →
      (liveRun liveInit pre).udp_rx ≤ win.length := by
    intro hready
    rw [hlen]
    rcases hinv1 with ⟨_, _, _, _, _, hu2⟩ | ⟨hc, _⟩
    · exact hu2
    · rw [hc] at hready
      exact absurd hready (by decide)
  have hwin := liveRun_silent_udp win (liveRun liveInit pre) hinv1 hsil hbound
  rw [liveRun_append, liveRun_append,
      liveRun_frozen post _ (by rw [hwin.1]; decide)]
  exact hwin

theorem liveRun_window_tcp (pre win post : List (Bool × Bool))
    (hlen : win.length = TCP_HEARTBEAT_RX_CNT_RESET)
    (hsil : ∀ i ∈ win, i.1 = false) :
    (liveRun liveInit (pre ++ win ++ post)).conn = .disconnected ∧
    (liveRun liveInit (pre ++ win ++ post)).disconnect_count = 1 := by
  have hinv1 : LiveInv (liveRun liveInit pre) :=
    liveRun_inv pre liveInit liveInit_inv
  have hbound : (liveRun liveInit pre).conn = .ready →
      (liveRun liveInit pre).tcp_rx ≤ win.length := by
    intro hready
    rw [hlen]
    rcases hinv1 with ⟨_, _, _, ht2, _, _⟩ | ⟨hc, _⟩
    · exact ht2
    · rw [hc] at hready
      exact absurd hready (by decide)
  have hwin := liveRun_silent_tcp win (liveRun liveInit pre) hinv1 hsil hbound
  rw [liveRun_append, liveRun_append,
      liveRun_frozen post _ (by rw [hwin.1]; decide)]
  exact hwin

end ReflectorLogic

/-- C4: for every tick sequence — arbitrary traffic before and after the
silent window, and arbitrary reliable-channel traffic during it — if no valid
message arrives on the unreliable channel for its configured receive-reset
number of consecutive ticks (60), the session ends the whole run in
`Disconnected` with exactly one disconnect transition counted; symmetrically,
15 consecutive reliable-channel-silent ticks disconnect the session even if
the unreliable channel keeps receiving; for every tick sequence whatsoever
the session disconnects at most once; and the disconnect is not early: 59
UDP-silent (respectively 14 TCP-silent) ticks alone disconnect nothing. -/
theorem liveness_timeout_disconnects_once
    (pre win post pre2 win2 post2 ins : List (Bool × Bool))
    (hlen : win.length = ReflectorLogic.UDP_HEARTBEAT_RX_CNT_RESET)
    (hsil : ∀ i ∈ win, i.2 = false)
    (hlen2 : win2.length = ReflectorLogic.TCP_HEARTBEAT_RX_CNT_RESET)
    (hsil2 : ∀ i ∈ win2, i.1 = false) :
    (ReflectorLogic.liveRun ReflectorLogic.liveInit (pre ++ win ++ post)).conn
      = ReflectorLogic.ConnState.disconnected ∧
    (ReflectorLogic.liveRun ReflectorLogic.liveInit
        (pre ++ win ++ post)).disconnect_count = 1 ∧
    (ReflectorLogic.liveRun ReflectorLogic.liveInit
        (pre2 ++ win2 ++ post2)).conn
      = ReflectorLogic.ConnState.disconnected ∧
    (ReflectorLogic.liveRun ReflectorLogic.liveInit
        (pre2 ++ win2 ++ post2)).disconnect_count = 1 ∧
    (ReflectorLogic.liveRun ReflectorLogic.liveInit ins).disconnect_count ≤ 1 ∧
    (ReflectorLogic.liveRun ReflectorLogic.liveInit
        (List.replicate 59 (true, false))).disconnect_count = 0 ∧
    (ReflectorLogic.liveRun ReflectorLogic.liveInit
        (List.replicate 14 (false, true))).disconnect_count = 0 := by
  obtain ⟨hu1, hu2⟩ := ReflectorLogic.liveRun_window_udp pre win post hlen hsil
  obtain ⟨ht1, ht2⟩ :=
    ReflectorLogic.liveRun_window_tcp pre2 win2 post2 hlen2 hsil2
  exact ⟨hu1, hu2, ht1, ht2, ReflectorLogic.liveRun_count_le_one ins,
    by decide, by decide⟩

theorem liveness_timeout_disconnects_once_witness :
    (ReflectorLogic.liveRun ReflectorLogic.liveInit
        ([(true, true)] ++ List.replicate 60 (true, false)
          ++ [(false, false)])).conn
      = ReflectorLogic.ConnState.disconnected ∧
    (ReflectorLogic.liveRun ReflectorLogic.liveInit
        ([(true, true)] ++ List.replicate 60 (true, false)
          ++ [(false, false)])).disconnect_count = 1 ∧
    (ReflectorLogic.liveRun ReflectorLogic.liveInit
        ([(true, true)] ++ List.replicate 15 (false, true) ++ [])).conn
      = ReflectorLogic.ConnState.disconnected ∧
    (ReflectorLogic.liveRun ReflectorLogic.liveInit
        ([(true, true)] ++ List.replicate 15 (false, true)
          ++ [])).disconnect_count = 1 ∧
    (ReflectorLogic.liveRun ReflectorLogic.liveInit
        [(true, true)]).disconnect_count ≤ 1 ∧
    (ReflectorLogic.liveRun ReflectorLogic.liveInit
        (List.replicate 59 (true, false))).disconnect_count = 0 ∧
    (ReflectorLogic.liveRun ReflectorLogic.liveInit
        (List.replicate 14 (false, true))).disconnect_count = 0 :=
  liveness_timeout_disconnects_once [(true, true)]
    (List.replicate 60 (true, false)) [(false, false)] [(true, true)]
    (List.replicate 15 (false, true)) [] [(true, true)]
    (by decide) (by decide) (by decide) (by decide)

namespace ReflectorLogic

/-- The authentication-relevant part of the session: the connection state and
the digest of the last transmitted `AuthResponse`, if any. -/
structure Session where
  state : ConnState
  response_sent : Option Nat
deriving DecidableEq, Repr

/-- Modelled from the spec: the body of
`ReflectorLogic::handleMsgAuthChallenge` is declared in ReflectorLogic.h but
is not in the snapshot.  A challenge received in `AwaitingChallenge` computes
the response as a one-way function of the challenge nonce and the shared
secret (`digestFn`, a pluggable keyed hash), transmits it and moves to
`Authenticating`; a challenge received in any other state is a protocol
anomaly that is rejected/logged and causes no state change. -/
def handleMsgAuthChallenge (digestFn : Nat → Nat → Nat) (secret : Nat)
    (s : Session) (nonce : Nat) : Session :=
  if s.state = .awaitingChallenge then
    { state := .authenticating, response_sent := some (digestFn nonce secret) }
  else s

end ReflectorLogic

/-- C5: receiving an `AuthChallenge` while the session is in any state other
than `AwaitingChallenge` leaves the whole session state unchanged: the
message is rejected and handling it has no effect. -/
theorem auth_challenge_outside_awaiting_no_change
    (digestFn : Nat → Nat → Nat) (secret : Nat)
    (s : ReflectorLogic.Session) (nonce : Nat)
    (h : s.state ≠ ReflectorLogic.ConnState.awaitingChallenge) :
    ReflectorLogic.handleMsgAuthChallenge digestFn secret s nonce = s := by
  simp [ReflectorLogic.handleMsgAuthChallenge, h]

theorem auth_challenge_outside_awaiting_no_change_witness :
    ReflectorLogic.handleMsgAuthChallenge (fun a b => a + b) 7
        ⟨ReflectorLogic.ConnState.ready, none⟩ 4660
      = ⟨ReflectorLogic.ConnState.ready, none⟩ :=
  auth_challenge_outside_awaiting_no_change (fun a b => a + b) 7
    ⟨ReflectorLogic.ConnState.ready, none⟩ 4660 (by decide)

namespace ReflectorLogic

/-- Modelled from the spec: the width of the "small forward tolerance window"
for incoming audio frame sequence numbers (its exact value is not given by the
spec; any value between 2 and 2^15 supports the spec scenario). -/
def RX_TOLERANCE : Nat := 16

/-- Forward distance from sequence number `b` to sequence number `a` in
16-bit wrap-around arithmetic (true modular comparison, not raw integer
comparison). -/
def seqDiff (a b : Nat) : Nat := (a % 65536 + 65536 - b % 65536) % 65536

/-- The receive-side resequencing state: the next expected sequence number
(`m_next_udp_rx_seq`) and the reorder buffer of frames accepted ahead of it. -/
structure RxState where
  expected : Nat
  buffer : List Nat
deriving DecidableEq, Repr

/-- Drain the reorder buffer: deliver to the decoder the consecutively
numbered frames starting at the expected value, in order, advancing the
expected counter.  `fuel` bounds the recursion by the buffer size.  The
result is the new expected value, the remaining buffer and the delivered
sequence numbers in delivery order. -/
def drainAux : Nat → Nat → List Nat → Nat × List Nat × List Nat
  | 0, e, buf => (e, buf, [])
  | fuel + 1, e, buf =>
    if e ∈ buf then
      let r := drainAux fuel ((e + 1) % 65536) (buf.erase e)
      (r.1, r.2.1, e :: r.2.2)
    else (e, buf, [])

/-- Modelled from the spec: the body of
`ReflectorLogic::udpDatagramReceived` is declared in ReflectorLogic.h but is
not in the snapshot.  Each arriving frame's sequence number is compared
against the expected next value; a frame within the small forward tolerance
window that is not a duplicate is accepted (buffered, then every
consecutively numbered frame from the expected value on is fed to the decoder
in sequence order); a frame out of range — stale, duplicate or excessively
far ahead — is dropped.  The result is the new state and the sequence numbers
delivered to the decoder by this arrival, in delivery order. -/
def rxFrame (st : RxState) (s : Nat) : RxState × List Nat :=
  let sn := s % 65536
  if seqDiff sn st.expected < RX_TOLERANCE ∧ sn ∉ st.buffer then
    let r := drainAux (st.buffer.length + 1) st.expected (sn :: st.buffer)
    (⟨r.1, r.2.1⟩, r.2.2)
  else (st, [])

/-- Process a stream of arriving frames, concatenating what reaches the
decoder. -/
def rxRun (st : RxState) : List Nat → RxState × List Nat
  | [] => (st, [])
  | s :: rest =>
    let r := rxFrame st s
    let r2 := rxRun r.1 rest
    (r2.1, r.2 ++ r2.2)

/-- The list `e, e+1, ..., e+n-1`, each reduced modulo 2^16: the strictly
consecutive sequence numbers starting at `e`. -/
def consecFrom (e : Nat) : Nat → List Nat
  | 0 => []
  | n + 1 => e % 65536 :: consecFrom (e + 1) n

theorem consecFrom_congr : ∀ (n a b : Nat), a % 65536 = b % 65536 →
    consecFrom a n = consecFrom b n
  | 0, _, _, _ => rfl
  | n + 1, a, b, h => by
    simp only [consecFrom, h]
    exact congrArg _ (consecFrom_congr n (a + 1) (b + 1) (by omega))

theorem drainAux_in_order : ∀ (fuel e : Nat) (buf : List Nat), e < 65536 →
    (drainAux fuel e buf).2.2
      = consecFrom e (drainAux fuel e buf).2.2.length
  | 0, _, _, _ => rfl
  | fuel + 1, e, buf, h => by
    by_cases hm : e ∈ buf
    · have ih := drainAux_in_order fuel ((e + 1) % 65536) (buf.erase e)
        (Nat.mod_lt _ (by omega))
      simp only [drainAux, if_pos hm, List.length_cons, consecFrom]
      refine congrArg₂ List.cons (Nat.mod_eq_of_lt h).symm ?_
      exact ih.trans (consecFrom_congr _ _ _ (by omega))
    · simp [drainAux, if_neg hm, consecFrom]

end ReflectorLogic

/-- C6: frames within the forward tolerance window are accepted, reordered
when needed, and reach the decoder strictly in consecutive sequence order
(each drain delivers exactly the run `expected, expected+1, ...` mod 2^16);
stale, duplicate or far-ahead frames are dropped with no state change.
Concretely, arrivals `5,6,8,7,9` from expected value 5 are delivered as
`5,6,7,8,9`, and a frame with sequence `2` arriving after `9` is dropped. -/
theorem rx_frames_resequenced (fuel e : Nat) (buf : List Nat)
    (h : e < 65536) :
    ReflectorLogic.rxRun ⟨5, []⟩ [5, 6, 8, 7, 9]
      = (⟨10, []⟩, [5, 6, 7, 8, 9]) ∧
    ReflectorLogic.rxFrame ⟨10, []⟩ 2 = (⟨10, []⟩, []) ∧
    (ReflectorLogic.drainAux fuel e buf).2.2
      = ReflectorLogic.consecFrom e
          (ReflectorLogic.drainAux fuel e buf).2.2.length :=
  ⟨by decide, by decide, ReflectorLogic.drainAux_in_order fuel e buf h⟩

theorem rx_frames_resequenced_witness :
    ReflectorLogic.rxRun ⟨5, []⟩ [5, 6, 8, 7, 9]
      = (⟨10, []⟩, [5, 6, 7, 8, 9]) ∧
    ReflectorLogic.rxFrame ⟨10, []⟩ 2 = (⟨10, []⟩, []) ∧
    (ReflectorLogic.drainAux 2 7 [7, 8]).2.2
      = ReflectorLogic.consecFrom 7
          (ReflectorLogic.drainAux 2 7 [7, 8]).2.2.length :=
  rx_frames_resequenced 2 7 [7, 8] (by decide)

namespace ReflectorLogic

/-- The flush-relevant events: an upstream flush request (with the encoder
either already drained or still holding output), the encoder reporting that
all remaining output has drained, and the flush-timeout timer firing. -/
inductive FlushEv
  | flushRequest (encoder_empty : Bool)
  | encoderDrained
  | flushTimerFired
deriving DecidableEq, Repr

/-- The flush-relevant part of the session: the connection state, whether a
flush handshake is in progress, whether the flush-timeout timer is pending,
and how many times "flush complete" has been signalled downstream. -/
structure FlushState where
  conn : ConnState
  flushing : Bool
  timer_pending : Bool
  flushed_signals : Nat
deriving DecidableEq, Repr

/-- Modelled from the spec: the bodies of `ReflectorLogic::flushTimeout` and
`ReflectorLogic::allEncodedSamplesFlushed` are declared in ReflectorLogic.h
but are not in the snapshot.  A flush request with the encoder already empty
signals "flush complete" immediately; otherwise the flush-timeout timer is
started.  Normal drain completion during a flush cancels the timer and
signals completion; if the timer fires first, flush completion is forced —
exactly once, since the in-progress flag is cleared — and the timeout is not
a session failure, so the connection state is untouched. -/
def flushStep (st : FlushState) : FlushEv → FlushState
  | .flushRequest encoder_empty =>
    if encoder_empty then { st with flushed_signals := st.flushed_signals + 1 }
    else { st with flushing := true, timer_pending := true }
  | .encoderDrained =>
    if st.flushing then
      { st with flushing := false, timer_pending := false,
                flushed_signals := st.flushed_signals + 1 }
    else st
  | .flushTimerFired =>
    if st.flushing then
      { st with flushing := false, timer_pending := false,
                flushed_signals := st.flushed_signals + 1 }
    else { st with timer_pending := false }

/-- Run a sequence of flush events. -/
def flushRun (st : FlushState) (evs : List FlushEv) : FlushState :=
  evs.foldl flushStep st

/-- The flush state while `Ready` with no flush in progress. -/
def flushInit : FlushState :=
  { conn := .ready, flushing := false, timer_pending := false,
    flushed_signals := 0 }

end ReflectorLogic

/-- C7: a flush request with the encoder immediately empty signals "flush
complete" within the same step; when encoder output is still pending and the
flush-timeout timer fires first, "flush complete" is still signalled exactly
once — a later encoder drain adds no second signal; and the flush timeout
never changes the connection state (it never ends the session or moves it to
`Disconnected`). -/
theorem flush_complete_signalled_once (st : ReflectorLogic.FlushState) :
    (ReflectorLogic.flushStep st (.flushRequest true)).flushed_signals
      = st.flushed_signals + 1 ∧
    (ReflectorLogic.flushStep st (.flushRequest true)).conn = st.conn ∧
    ReflectorLogic.flushRun ReflectorLogic.flushInit
        [.flushRequest false, .flushTimerFired, .encoderDrained]
      = { conn := .ready, flushing := false, timer_pending := false,
          flushed_signals := 1 } ∧
    (ReflectorLogic.flushStep st .flushTimerFired).conn = st.conn := by
  refine ⟨rfl, rfl, by decide, ?_⟩
  simp only [ReflectorLogic.flushStep]
  split <;> rfl
